import Mathlib

/-!
Verification of the csv-prometheus-exporter repository against its
natural-language specification.

The development shallowly embeds the relevant Python sources:

* src/prometheus/__init__.py — the TTL-based metric registry (_MetricGC and
  the module-level inc_counter / set_gauge / observe / gc entry points);
* src/parser/__init__.py — the Metric record, the per-column readers, and
  LogParser (tokenization via the csv module plus per-line conversion);
* src/app.py — the format-schema validation of parse_config.

Python dicts are modelled as insertion-ordered association lists
(List (key × value)) with first-occurrence lookup and update-in-place
insertion, which matches CPython dict semantics.  Wall-clock times and
metric amounts (Python floats) are modelled as rationals; time.time() is
passed in explicitly as a parameter.  frozenset(labels.items()) is modelled
as List.toFinset of the association list.
-/

set_option autoImplicit false

namespace CsvProm

/-! ### Ordered-dict primitives -/

/-- First-occurrence lookup in an association list (CPython dict lookup;
keys of a real dict are unique, so first occurrence is the occurrence). -/
def dictGet {α : Type} {β : Type} [DecidableEq α] : List (α × β) → α → Option β
  | [], _ => none
  | (k, v) :: rest, a => if k = a then some v else dictGet rest a

/-- Insertion into an ordered dict: an existing key keeps its position and
gets the new value, a new key is appended at the end (CPython dict
assignment). -/
def dictInsert {α : Type} {β : Type} [DecidableEq α] : List (α × β) → α → β → List (α × β)
  | [], a, b => [(a, b)]
  | (k, v) :: rest, a, b =>
      if k = a then (k, b) :: rest else (k, v) :: dictInsert rest a b

/-! ### The metric registry (src/prometheus/__init__.py)

One sub-registry (class _MetricGC) keeps

* _metrics : full metric name → metric family, never evicted;
* _metrics_ttl : (full_name, frozenset(labels.items())) → last-touched time
  (the code stores the family object alongside the time; that reference
  always equals _metrics[full_name], so the model keeps only the time and
  gc resolves the family through its name);
* the module-level scraper_active_metrics gauge, modelled as a field.

Label dictionaries are association lists of (label name, label value);
a frozen label set is their List.toFinset. -/

/-- Label dictionary of one call, in insertion order. -/
abbrev Labels := List (String × String)

/-- Key of a series in the TTL table: (full_name, frozenset(labels.items())). -/
abbrev SeriesKey := String × Finset (String × String)

/-- State of one labelled child of a metric family, per kind.  Counter and
gauge children carry their current value; a histogram child carries the list
of observed values (enough to express that an observation was or was not
invoked). -/
inductive Child where
  | counterV (v : ℚ)
  | gaugeV (v : ℚ)
  | histV (obs : List ℚ)
deriving DecidableEq, Repr

/-- Kind of a metric family, fixed at creation; a histogram family also
fixes its buckets at creation. -/
inductive Kind where
  | counter
  | gauge
  | histogram (buckets : List ℚ)
deriving DecidableEq

/-- A metric family of the underlying exposition library: kind, docstring
and label-name list are fixed when the family is created; children map a
frozen label set to the child state. -/
structure Family where
  kind : Kind
  doc : String
  labelnames : List String
  children : List (Finset (String × String) × Child)
deriving DecidableEq

/-- Child increment of a counter family (counter.labels(**labels).inc(amount)):
the child is created at 0 on first access.  On a family of another kind the
library would raise (unreachable through the embedded call sites, which never
reuse one full name with two kinds); modelled as leaving the child untouched. -/
def Family.childInc (f : Family) (ls : Finset (String × String)) (amount : ℚ) : Family :=
  { f with children :=
      match dictGet f.children ls with
      | some (Child.counterV v) => dictInsert f.children ls (Child.counterV (v + amount))
      | some c => dictInsert f.children ls c
      | none => dictInsert f.children ls (Child.counterV amount) }

/-- Child assignment of a gauge family (gauge.labels(**labels).set(value)). -/
def Family.childSet (f : Family) (ls : Finset (String × String)) (value : ℚ) : Family :=
  { f with children :=
      match dictGet f.children ls with
      | some (Child.gaugeV _) => dictInsert f.children ls (Child.gaugeV value)
      | some c => dictInsert f.children ls c
      | none => dictInsert f.children ls (Child.gaugeV value) }

/-- Child observation of a histogram family
(histogram.labels(**labels).observe(value)). -/
def Family.childObserve (f : Family) (ls : Finset (String × String)) (value : ℚ) : Family :=
  { f with children :=
      match dictGet f.children ls with
      | some (Child.histV obs) => dictInsert f.children ls (Child.histV (obs ++ [value]))
      | some c => dictInsert f.children ls c
      | none => dictInsert f.children ls (Child.histV [value]) }

/-- Removal of one labelled child (metric.remove(*values)); the code
addresses the child through the label values ordered by the family's
_labelnames, which for children created through this registry is the same
child the frozen label set addresses.  Removing an absent child raises in
the library (unreachable here: an entry in the TTL table is always created
together with its child); modelled as a no-op. -/
def Family.childRemove (f : Family) (ls : Finset (String × String)) : Family :=
  { f with children := f.children.filter (fun c => c.1 ≠ ls) }

/-- State of one sub-registry (class _MetricGC), together with the
scraper_active_metrics gauge the code keeps at module level. -/
structure MetricGC where
  metrics : List (String × Family)
  metricsTtl : List (SeriesKey × ℚ)
  activeMetrics : ℚ
deriving DecidableEq

/-- The sub-registry a defaultdict creates on first use. -/
def emptyGC : MetricGC := ⟨[], [], 0⟩

/-- Translation of _MetricGC.inc: get or create the counter family, bump the
active-metrics gauge when the series key is new, store the current time
under the key, and increment the per-label child. -/
def MetricGC.inc (s : MetricGC) (fullName doc : String) (labels : Labels)
    (amount : ℚ) (now : ℚ) : MetricGC :=
  let got :=
    match dictGet s.metrics fullName with
    | some c => (c, s.metrics)
    | none =>
        let c : Family := ⟨Kind.counter, doc, labels.map Prod.fst, []⟩
        (c, dictInsert s.metrics fullName c)
  let counter := got.1
  let metrics1 := got.2
  let key : SeriesKey := (fullName, labels.toFinset)
  let active :=
    if (dictGet s.metricsTtl key).isSome then s.activeMetrics else s.activeMetrics + 1
  { metrics := dictInsert metrics1 fullName (counter.childInc labels.toFinset amount)
    metricsTtl := dictInsert s.metricsTtl key now
    activeMetrics := active }

/-- Translation of _MetricGC.set_gauge, the same shape as inc. -/
def MetricGC.set_gauge (s : MetricGC) (fullName doc : String) (labels : Labels)
    (value : ℚ) (now : ℚ) : MetricGC :=
  let got :=
    match dictGet s.metrics fullName with
    | some g => (g, s.metrics)
    | none =>
        let g : Family := ⟨Kind.gauge, doc, labels.map Prod.fst, []⟩
        (g, dictInsert s.metrics fullName g)
  let gauge := got.1
  let metrics1 := got.2
  let key : SeriesKey := (fullName, labels.toFinset)
  let active :=
    if (dictGet s.metricsTtl key).isSome then s.activeMetrics else s.activeMetrics + 1
  { metrics := dictInsert metrics1 fullName (gauge.childSet labels.toFinset value)
    metricsTtl := dictInsert s.metricsTtl key now
    activeMetrics := active }

/-- Translation of _MetricGC.observe.  Unlike inc and set_gauge, the source
puts the whole update — gauge bump, TTL-table store and the per-label
observation — under the test "if key not in self._metrics_ttl", so a call
whose series key already exists changes nothing (the family get-or-create
above the test still runs). -/
def MetricGC.observe (s : MetricGC) (fullName doc : String) (labels : Labels)
    (value : ℚ) (buckets : List ℚ) (now : ℚ) : MetricGC :=
  let got :=
    match dictGet s.metrics fullName with
    | some h => (h, s.metrics)
    | none =>
        let h : Family := ⟨Kind.histogram buckets, doc, labels.map Prod.fst, []⟩
        (h, dictInsert s.metrics fullName h)
  let histogram := got.1
  let metrics1 := got.2
  let key : SeriesKey := (fullName, labels.toFinset)
  if (dictGet s.metricsTtl key).isSome then
    { metrics := metrics1, metricsTtl := s.metricsTtl, activeMetrics := s.activeMetrics }
  else
    { metrics := dictInsert metrics1 fullName (histogram.childObserve labels.toFinset value)
      metricsTtl := dictInsert s.metricsTtl key now
      activeMetrics := s.activeMetrics + 1 }

/-- Translation of the loop body of _MetricGC.gc: an entry whose
last-touched time plus the TTL lies strictly before now has its child
removed from its family and is dropped; any other entry goes into the
cleaned table unchanged. -/
def gcStep (ttl now : ℚ) (acc : List (SeriesKey × ℚ) × List (String × Family))
    (kv : SeriesKey × ℚ) : List (SeriesKey × ℚ) × List (String × Family) :=
  if kv.2 + ttl < now then
    (acc.1,
     match dictGet acc.2 kv.1.1 with
     | some fam => dictInsert acc.2 kv.1.1 (fam.childRemove kv.1.2)
     | none => acc.2)
  else (acc.1 ++ [kv], acc.2)

/-- Translation of _MetricGC.gc (the TTL _current_ttl and time.time() are
passed in).  After the scan the surviving table replaces _metrics_ttl and
the scraper_active_metrics gauge is set to its size. -/
def MetricGC.gc (s : MetricGC) (ttl now : ℚ) : MetricGC :=
  let scanned := s.metricsTtl.foldl (gcStep ttl now) ([], s.metrics)
  { metrics := scanned.2
    metricsTtl := scanned.1
    activeMetrics := (scanned.1.length : ℚ) }

/-- Lookup of one child's state in a family table, used to state what gc
removed and what observe recorded. -/
def childGetM (m : List (String × Family)) (fullName : String)
    (ls : Finset (String × String)) : Option Child :=
  match dictGet m fullName with
  | some fam => dictGet fam.children ls
  | none => none

/-- Lookup of one child's state across a sub-registry. -/
def childState (s : MetricGC) (fullName : String) (ls : Finset (String × String)) :
    Option Child :=
  childGetM s.metrics fullName ls

/-- Reserved label name (module constant ENVIRONMENT). -/
def ENVIRONMENT : String := "environment"

/-- The module-level map environment → sub-registry (_metrics, a defaultdict
behind a readers-writer lock; the locking itself is concurrency and outside
the embedding). -/
abbrev Registry := List (String × MetricGC)

/-- Translation of _get_metrics: return the sub-registry of the key,
creating (and storing) a fresh one when the key is new. -/
def getMetricsSub (reg : Registry) (key : String) : MetricGC × Registry :=
  match dictGet reg key with
  | some m => (m, reg)
  | none => (emptyGC, dictInsert reg key emptyGC)

/-- Translation of the module-level inc_counter: the full name glues the
validated prefix to the user name with a colon, and the call routes to the
sub-registry of labels["environment"].  A labels dict without the
environment key raises KeyError in the source; modelled as none. -/
def inc_counter (pfx : String) (reg : Registry) (name doc : String)
    (labels : Labels) (amount : ℚ) (now : ℚ) : Option Registry :=
  match dictGet labels ENVIRONMENT with
  | none => none
  | some env =>
      let fullName := pfx ++ ":" ++ name
      let got := getMetricsSub reg env
      some (dictInsert got.2 env (got.1.inc fullName doc labels amount now))

/-- Survival predicate of one TTL entry at a gc pass: the entry stays
unless its last-touched time plus the TTL lies strictly before now. -/
def survives (ttl now : ℚ) (kv : SeriesKey × ℚ) : Bool :=
  if kv.2 + ttl < now then false else true

/-- Repeated _MetricGC.inc calls on one sub-registry, one per time stamp. -/
def incGCTimes (fullName doc : String) (labels : Labels) (amount : ℚ)
    (s : MetricGC) (ts : List ℚ) : MetricGC :=
  ts.foldl (fun st t => st.inc fullName doc labels amount t) s

/-- Two sub-registry states that agree everywhere except possibly on the
last-touched time stored under one series key: same families and children,
same active-metrics gauge, the same TTL keys in the same order, and the
same time under every other key. -/
def MetricGCEqExceptTtlAt (key : SeriesKey) (x y : MetricGC) : Prop :=
  x.metrics = y.metrics ∧
  x.activeMetrics = y.activeMetrics ∧
  x.metricsTtl.map Prod.fst = y.metricsTtl.map Prod.fst ∧
  ∀ k, k ≠ key → dictGet x.metricsTtl k = dictGet y.metricsTtl k

/-- Two registry states that agree everywhere except possibly on the
last-touched time of one series of one environment. -/
def RegEqExceptTtlAt (env : String) (key : SeriesKey) (A B : Registry) : Prop :=
  A.map Prod.fst = B.map Prod.fst ∧
  (∀ e, e ≠ env → dictGet A e = dictGet B e) ∧
  ∃ x y, dictGet A env = some x ∧ dictGet B env = some y ∧
    MetricGCEqExceptTtlAt key x y

/-- Repeated inc_counter calls in succession, one per time stamp. -/
def incCounterTimes (pfx : String) (name doc : String) (labels : Labels)
    (amount : ℚ) : List ℚ → Registry → Option Registry
  | [], reg => some reg
  | t :: ts, reg =>
      match inc_counter pfx reg name doc labels amount t with
      | none => none
      | some reg1 => incCounterTimes pfx name doc labels amount ts reg1


/-! ### The line parser (src/parser/__init__.py)

Python numeric values are modelled exactly: an int as an integer, a float
by the exact rational value of its literal (IEEE rounding is not modelled;
no claim compares rounded values), with infinities and NaN as separate
constructors.  The acceptance grammar of the builtins int() and float() is
modelled for ASCII input: optional surrounding whitespace, an optional
sign, digit runs with single underscores strictly between digits, and for
float() an optional fraction, an optional exponent and the case-insensitive
keywords inf, infinity and nan.  (Python additionally accepts non-ASCII
unicode digits and whitespace; no claim depends on those.) -/

/-- Value of a Python float as far as the claims need it. -/
inductive PyFloat where
  | finite (q : ℚ)
  | inf
  | neginf
  | nan
deriving DecidableEq, Repr

/-- A value stored in Metric.metrics: Python int or float. -/
inductive PyNumber where
  | intVal (z : ℤ)
  | floatVal (f : PyFloat)
deriving DecidableEq, Repr

/-- ASCII whitespace stripped by int()/float() and split on by str.split(). -/
def pyWs : List Char := [' ', '\t', '\n', '\r', '\x0b', '\x0c']

/-- Strip leading and trailing whitespace. -/
def trimWs (cs : List Char) : List Char :=
  ((cs.dropWhile pyWs.contains).reverse.dropWhile pyWs.contains).reverse

/-- Numeric value of an ASCII digit. -/
def digitVal (c : Char) : ℕ := c.toNat - ('0').toNat

/-- Continuation of a digit run: digits with single underscores strictly
between digits; returns the value, the digit count and the unconsumed rest. -/
def digitRunCore : List Char → ℕ → ℕ → ℕ × ℕ × List Char
  | [], acc, n => (acc, n, [])
  | '_' :: c :: rest, acc, n =>
      if c.isDigit then digitRunCore rest (10 * acc + digitVal c) (n + 1)
      else (acc, n, '_' :: c :: rest)
  | ['_'], acc, n => (acc, n, ['_'])
  | c :: rest, acc, n =>
      if c.isDigit then digitRunCore rest (10 * acc + digitVal c) (n + 1)
      else (acc, n, c :: rest)

/-- A digit run must start with a digit. -/
def parseDigitRun (cs : List Char) : Option (ℕ × ℕ × List Char) :=
  match cs with
  | c :: rest => if c.isDigit then some (digitRunCore rest (digitVal c) 1) else none
  | [] => none

/-- Optional sign; the Bool is true for a minus. -/
def parseSign : List Char → Bool × List Char
  | '-' :: rest => (true, rest)
  | '+' :: rest => (false, rest)
  | cs => (false, cs)

/-- Acceptance and value of the builtin int() on a token. -/
def pyInt (s : String) : Option ℤ :=
  let sg := parseSign (trimWs s.toList)
  match parseDigitRun sg.2 with
  | some (v, _, []) => some (if sg.1 then -(v : ℤ) else (v : ℤ))
  | _ => none

/-- Fraction part after the mantissa dot: optional digits. -/
def parseFrac (cs : List Char) : ℕ × ℕ × List Char :=
  match cs with
  | '.' :: r =>
      match parseDigitRun r with
      | some (v, n, r2) => (v, n, r2)
      | none => (0, 0, r)
  | r => (0, 0, r)

/-- Whether the mantissa had a dot (needed only to tell "1." from "1"
for nothing: both are accepted; kept for clarity of parseFrac). -/
def mantissaValue (neg : Bool) (ival : ℕ) (fval : ℕ) (fcount : ℕ) : ℚ :=
  let m : ℚ := (ival : ℚ) + (fval : ℚ) / ((10 : ℚ) ^ fcount)
  if neg then -m else m

/-- Acceptance and value of the builtin float() on a token. -/
def pyFloat (s : String) : Option PyFloat :=
  let sg := parseSign (trimWs s.toList)
  let low := sg.2.map Char.toLower
  if low = ("inf").toList ∨ low = ("infinity").toList then
    some (if sg.1 then PyFloat.neginf else PyFloat.inf)
  else if low = ("nan").toList then some PyFloat.nan
  else
    let ip :=
      match parseDigitRun sg.2 with
      | some (v, n, r) => (v, n, r)
      | none => (0, 0, sg.2)
    let fp := parseFrac ip.2.2
    if ip.2.1 + fp.2.1 = 0 then none
    else
      let mant := mantissaValue sg.1 ip.1 fp.1 fp.2.1
      match fp.2.2 with
      | [] => some (PyFloat.finite mant)
      | e :: r =>
          if e = 'e' ∨ e = 'E' then
            let esg := parseSign r
            match parseDigitRun esg.2 with
            | some (ev, _, []) =>
                some (PyFloat.finite
                  (if esg.1 then mant / ((10 : ℚ) ^ ev) else mant * ((10 : ℚ) ^ ev)))
            | _ => none
          else none

/-- Translation of class Metric: label bindings plus numeric fields of one
parsed line.  The labels field aliases the dict passed to the constructor
(the source does not copy it), which the conversion functions below make
explicit by returning the final labels alongside the result. -/
structure Metric where
  labels : Labels
  metrics : List (String × PyNumber)
deriving DecidableEq

/-- Translation of label_reader: entry.labels[name] = value. -/
def label_reader (name : String) (entry : Metric) (value : String) : Option Metric :=
  some { entry with labels := dictInsert entry.labels name value }

/-- Translation of str.split() used by request_header_reader: split on
whitespace runs, discarding empty tokens. -/
def pySplitGo : List Char → List Char → List String
  | [], cur => if cur = [] then [] else [String.mk cur.reverse]
  | c :: rest, cur =>
      if pyWs.contains c then
        if cur = [] then pySplitGo rest []
        else String.mk cur.reverse :: pySplitGo rest []
      else pySplitGo rest (c :: cur)

def pySplit (value : String) : List String := pySplitGo value.toList []

/-- Translation of request_header_reader: the token must split into exactly
three sub-tokens, bound to three fixed label names; the parse error is
raised before any label is written. -/
def request_header_reader (entry : Metric) (value : String) : Option Metric :=
  match pySplit value with
  | [m0, u, v] =>
      let l1 := dictInsert entry.labels "request_method" m0
      let l2 := dictInsert l1 "request_uri" u
      some { entry with labels := dictInsert l2 "request_http_version" v }
  | _ => none

/-- Translation of int_reader: entry.metrics[name] = int(value), ParserError
when int() rejects the token (int() is evaluated before the assignment, so a
failing reader leaves the entry untouched). -/
def int_reader (name : String) (entry : Metric) (value : String) : Option Metric :=
  match pyInt value with
  | some i => some { entry with metrics := dictInsert entry.metrics name (PyNumber.intVal i) }
  | none => none

/-- Translation of clf_int_reader: the CLF dash stores 0, any other token is
parsed like int_reader. -/
def clf_int_reader (name : String) (entry : Metric) (value : String) : Option Metric :=
  if value = "-" then
    some { entry with metrics := dictInsert entry.metrics name (PyNumber.intVal 0) }
  else
    match pyInt value with
    | some i => some { entry with metrics := dictInsert entry.metrics name (PyNumber.intVal i) }
    | none => none

/-- Translation of float_reader: entry.metrics[name] = float(value). -/
def float_reader (name : String) (entry : Metric) (value : String) : Option Metric :=
  match pyFloat value with
  | some f => some { entry with metrics := dictInsert entry.metrics name (PyNumber.floatVal f) }
  | none => none

/-- Modelled from the spec: number_reader is imported by src/app.py from the
parser package but its definition is not among the given source files.  Per
the spec, number(name) parses the token as an integer first, else as
floating point, storing under metrics[name], with a parse error on a
non-numeric token; it is built here from the source's int_reader and
float_reader. -/
def number_reader (name : String) (entry : Metric) (value : String) : Option Metric :=
  match int_reader name entry value with
  | some r => some r
  | none => float_reader name entry value

/-- Modelled from the spec: clf_number_reader is imported by src/app.py but
its definition is not among the given source files.  Per the spec it is
like number, but the token "-" maps to 0 (the source's clf_int_reader shows
the dash convention with the stored 0 being the int zero). -/
def clf_number_reader (name : String) (entry : Metric) (value : String) : Option Metric :=
  if value = "-" then
    some { entry with metrics := dictInsert entry.metrics name (PyNumber.intVal 0) }
  else number_reader name entry value

/-- The reader catalog parse_config builds readers from (src/app.py): each
format column is either skipped (None) or one of these four kinds. -/
inductive ReaderSpec where
  | label (name : String)
  | number (name : String)
  | clf_number (name : String)
  | request_header
deriving DecidableEq, Repr

/-- Application of one catalog reader. -/
def applyReader : ReaderSpec → Metric → String → Option Metric
  | ReaderSpec.label name, m, v => label_reader name m v
  | ReaderSpec.number name, m, v => number_reader name m v
  | ReaderSpec.clf_number name, m, v => clf_number_reader name m v
  | ReaderSpec.request_header, m, v => request_header_reader m v

/-- Label names a reader list can write (label columns write their own
name, request_header writes its three fixed names, numeric and skipped
columns write no label). -/
def writableNames : List (Option ReaderSpec) → List String
  | [] => []
  | some (ReaderSpec.label name) :: rest => name :: writableNames rest
  | some ReaderSpec.request_header :: rest =>
      "request_method" :: "request_uri" :: "request_http_version" :: writableNames rest
  | _ :: rest => writableNames rest

/-- Label names one catalog reader writes on success. -/
def readerNames : ReaderSpec → List String
  | ReaderSpec.label name => [name]
  | ReaderSpec.request_header =>
      ["request_method", "request_uri", "request_http_version"]
  | _ => []

/-- Translation of the loop of convert_csv_line: for each (reader, token)
pair of zip(readers, line), a null reader is skipped, any other reader is
applied; the first ParserError stops the loop with the Metric in its
current, partially written state (false flag). -/
def runReaders : List (Option ReaderSpec) → List String → Metric → Metric × Bool
  | some r :: rs, c :: cs, m =>
      match applyReader r m c with
      | some m1 => runReaders rs cs m1
      | none => (m, false)
  | none :: rs, _ :: cs, m => runReaders rs cs m
  | _, _, m => (m, true)

/-- Translation of LogParser.convert_csv_line.  The Metric is constructed
directly on the labels dict (Metric.__init__ stores the reference, it does
not copy), so the second component returns the labels dict as the call
leaves it: base labels on a length mismatch, otherwise the labels of the
Metric at the point the loop stopped — the state the shared dict of the
source is left in for the next line. -/
def convert_csv_line (readers : List (Option ReaderSpec)) (line : List String)
    (labels : Labels) : Option Metric × Labels :=
  if readers.length ≠ line.length then (none, labels)
  else
    let r := runReaders readers line ⟨labels, []⟩
    (if r.2 then some r.1 else none, r.1.labels)

/-- Whether conversion of a tokenized line succeeds; success depends only
on the readers and the tokens, never on the labels state (proved below). -/
def lineOk (readers : List (Option ReaderSpec)) (row : List String) : Bool :=
  readers.length == row.length && (runReaders readers row ⟨[], []⟩).2

/-- Conversion of successive records, threading the one shared labels dict
exactly as read_all does through self._labels. -/
def convertThread (readers : List (Option ReaderSpec)) :
    List (List String) → Labels → List (Option Metric)
  | [], _ => []
  | row :: rest, labels =>
      let r := convert_csv_line readers row labels
      r.1 :: convertThread readers rest r.2

/-- Conversion of each record against a fresh Metric seeded with the
original base labels: the per-line reading the specification describes. -/
def convertFresh (readers : List (Option ReaderSpec)) (base : Labels)
    (rows : List (List String)) : List (Option Metric) :=
  rows.map (fun row => (convert_csv_line readers row base).1)

/-- Equivalence of two per-line results as the emission loop observes
them: the same success shape, labels equal as maps (the consumer reads
entry.labels through frozenset(labels.items()) and keyword lookup, both
insertion-order independent) and numeric fields equal. -/
def MetricEquiv (m1 m2 : Metric) : Prop :=
  (∀ n, dictGet m1.labels n = dictGet m2.labels n) ∧ m1.metrics = m2.metrics

/-- Pointwise lift of MetricEquiv to the sentinel-or-Metric items read_all
yields. -/
def OptMetricEquiv : Option Metric → Option Metric → Prop
  | none, none => True
  | some m1, some m2 => MetricEquiv m1 m2
  | _, _ => False

/-! ### The csv tokenizer

LogParser feeds its line iterable to csv.reader(file, delimiter=space,
doublequote=False, strict=True); quotechar stays the double quote, there is
no escapechar and no skipinitialspace.  The state machine below transcribes
parse_process_char of CPython's _csv module for exactly this dialect
(escape states and the doubled-quote state are unreachable).  Its observed
behaviour was cross-checked against the Python csv module on the dialect:
blank lines give an empty record, quoted fields may span chunks, and at end
of input a dangling quoted field raises Error("unexpected end of data")
under strict mode. -/

inductive CsvState where
  | startRecord
  | startField
  | inField
  | inQuotedField
  | eatCrnl
deriving DecidableEq, Repr

inductive CsvErr where
  | nulByte
  | newlineInUnquotedField
  | unexpectedEndOfData
deriving DecidableEq, Repr

structure CsvReader where
  st : CsvState
  field : List Char
  fields : List String
deriving DecidableEq, Repr

def csvInit : CsvReader := ⟨CsvState.startRecord, [], []⟩

/-- parse_save_field: close the current field. -/
def saveField (d : CsvReader) : CsvReader :=
  { d with fields := d.fields ++ [String.mk d.field], field := [] }

/-- parse_add_char. -/
def addChar (d : CsvReader) (c : Char) : CsvReader :=
  { d with field := d.field ++ [c] }

/-- The START_FIELD case of parse_process_char (also reached by fallthrough
from START_RECORD): a newline closes an empty field and the record, a quote
opens a quoted field, the space delimiter closes an empty field, anything
else starts an unquoted field. -/
def csvStartField (d : CsvReader) (c : Char) : CsvReader :=
  if c = '\n' ∨ c = '\r' then { saveField d with st := CsvState.eatCrnl }
  else if c = '"' then { d with st := CsvState.inQuotedField }
  else if c = ' ' then saveField { d with st := CsvState.startField }
  else { addChar d c with st := CsvState.inField }

/-- One data character of parse_process_char for the dialect.  A NUL byte
in the data is an error ("line contains NUL"); in EAT_CRNL any character
other than a newline is the "new-line character seen in unquoted field"
error of the csv module. -/
def csvProcessChar (d : CsvReader) (c : Char) : Except CsvErr CsvReader :=
  if c = '\x00' then Except.error CsvErr.nulByte
  else
    match d.st with
    | CsvState.startRecord =>
        if c = '\n' ∨ c = '\r' then Except.ok { d with st := CsvState.eatCrnl }
        else Except.ok (csvStartField d c)
    | CsvState.startField => Except.ok (csvStartField d c)
    | CsvState.inField =>
        if c = '\n' ∨ c = '\r' then Except.ok { saveField d with st := CsvState.eatCrnl }
        else if c = ' ' then Except.ok { saveField d with st := CsvState.startField }
        else Except.ok (addChar d c)
    | CsvState.inQuotedField =>
        if c = '"' then Except.ok { d with st := CsvState.inField }
        else Except.ok (addChar d c)
    | CsvState.eatCrnl =>
        if c = '\n' ∨ c = '\r' then Except.ok d
        else Except.error CsvErr.newlineInUnquotedField

/-- End of one chunk of the line iterable (parse_process_char with the NUL
sentinel): every state closes the record except a quoted field, which
continues into the next chunk. -/
def csvEndChunk (d : CsvReader) : Option (List String) × CsvReader :=
  match d.st with
  | CsvState.startRecord => (some d.fields, csvInit)
  | CsvState.startField => (some (saveField d).fields, csvInit)
  | CsvState.inField => (some (saveField d).fields, csvInit)
  | CsvState.eatCrnl => (some d.fields, csvInit)
  | CsvState.inQuotedField => (none, d)

/-- Process one chunk: all its characters, then the end-of-chunk step. -/
def csvChunk (d : CsvReader) (chunk : String) :
    Except CsvErr (Option (List String) × CsvReader) := do
  let d1 ← chunk.toList.foldlM csvProcessChar d
  pure (csvEndChunk d1)

/-- Iteration of csv.reader over the whole line iterable: completed records
in order, plus the csv.Error that ended the stream when there is one.  At
end of input a dangling quoted field (or unclosed field data) is the
strict-mode "unexpected end of data" error. -/
def csvRun : CsvReader → List String → List (List String) × Option CsvErr
  | d, [] =>
      if d.st = CsvState.inQuotedField ∨ d.field ≠ [] then
        ([], some CsvErr.unexpectedEndOfData)
      else ([], none)
  | d, chunk :: rest =>
      match csvChunk d chunk with
      | Except.error e => ([], some e)
      | Except.ok (some row, d1) =>
          let r := csvRun d1 rest
          (row :: r.1, r.2)
      | Except.ok (none, d1) => csvRun d1 rest

def pyCsvReadAll (chunks : List String) : List (List String) × Option CsvErr :=
  csvRun csvInit chunks

/-- Translation of LogParser.read_all: tokenize the line iterable with the
csv reader and convert each record, threading the shared labels dict.  A
ParserError from conversion yields the sentinel none; a csv.Error raised
while iterating the csv reader is outside the try of read_all (and is no
ParserError), so it terminates the sequence — it is returned as the second
component.  Tokenization never depends on conversion, so tokenizing first
is equivalent to the generator interleaving of the source. -/
def read_all (readers : List (Option ReaderSpec)) (labels : Labels)
    (chunks : List String) : List (Option Metric) × Option CsvErr :=
  let t := pyCsvReadAll chunks
  (convertThread readers t.1 labels, t.2)

/-! ### Format-schema validation (src/app.py, parse_config)

A format entry of the YAML schema is nothing (a null column), a named null
column, or a named column with a type string.  parse_config raises on a
label column named environment and on a non-label column named
parser_errors or lines_parsed; an unknown type string raises KeyError on
the reader-catalog dict.  Any of these exceptions escapes parse_config,
which runs at import time: a startup-fatal error. -/

abbrev FmtEntry := Option (String × Option String)

inductive ConfigError where
  | reservedLabelName
  | reservedMetricName (name : String)
  | unknownReaderType (tp : String)
deriving DecidableEq, Repr

/-- The reader-catalog dict of parse_config; an unknown key is a KeyError. -/
def readerOfType (tp name : String) : Option ReaderSpec :=
  if tp = "number" then some (ReaderSpec.number name)
  else if tp = "clf_number" then some (ReaderSpec.clf_number name)
  else if tp = "request_header" then some ReaderSpec.request_header
  else if tp = "label" then some (ReaderSpec.label name)
  else none

/-- Translation of the format loop of parse_config: entries are processed
in order and the first exception aborts the load. -/
def validateFormat : List FmtEntry → Except ConfigError (List (Option ReaderSpec))
  | [] => Except.ok []
  | none :: rest =>
      match validateFormat rest with
      | Except.ok rs => Except.ok (none :: rs)
      | Except.error e => Except.error e
  | some (_, none) :: rest =>
      match validateFormat rest with
      | Except.ok rs => Except.ok (none :: rs)
      | Except.error e => Except.error e
  | some (name, some tp) :: rest =>
      if tp = "label" ∧ name = "environment" then
        Except.error ConfigError.reservedLabelName
      else if tp ≠ "label" ∧ (name = "parser_errors" ∨ name = "lines_parsed") then
        Except.error (ConfigError.reservedMetricName name)
      else
        match readerOfType tp name with
        | none => Except.error (ConfigError.unknownReaderType tp)
        | some r =>
            match validateFormat rest with
            | Except.ok rs => Except.ok (some r :: rs)
            | Except.error e => Except.error e


/-! ## Theorems -/

theorem dictGet_dictInsert_self {α β : Type} [DecidableEq α]
    (d : List (α × β)) (a : α) (b : β) : dictGet (dictInsert d a b) a = some b := by
  induction d with
  | nil => simp [dictInsert, dictGet]
  | cons kv rest ih =>
      obtain ⟨k, v⟩ := kv
      by_cases h : k = a <;> simp [dictInsert, dictGet, h, ih]

theorem dictGet_dictInsert_ne {α β : Type} [DecidableEq α]
    (d : List (α × β)) (a a' : α) (b : β) (h : a' ≠ a) :
    dictGet (dictInsert d a b) a' = dictGet d a' := by
  induction d with
  | nil => simp [dictInsert, dictGet, Ne.symm h]
  | cons kv rest ih =>
      obtain ⟨k, v⟩ := kv
      by_cases hk : k = a
      · subst hk
        simp [dictInsert, dictGet, Ne.symm h]
      · simp [dictInsert, dictGet, hk, ih]

theorem dictInsert_dictInsert {α β : Type} [DecidableEq α]
    (d : List (α × β)) (a : α) (b b' : β) :
    dictInsert (dictInsert d a b) a b' = dictInsert d a b' := by
  induction d with
  | nil => simp [dictInsert]
  | cons kv rest ih =>
      obtain ⟨k, v⟩ := kv
      by_cases h : k = a <;> simp [dictInsert, h, ih]

theorem dictInsert_map_fst {α β : Type} [DecidableEq α]
    (d : List (α × β)) (a : α) (b b' : β) :
    (dictInsert d a b).map Prod.fst = (dictInsert d a b').map Prod.fst := by
  induction d with
  | nil => simp [dictInsert]
  | cons kv rest ih =>
      obtain ⟨k, v⟩ := kv
      by_cases h : k = a <;> simp [dictInsert, h, ih]


theorem dictGet_filter_fst_ne {α β : Type} [DecidableEq α]
    (d : List (α × β)) (a : α) :
    dictGet (d.filter (fun c => c.1 ≠ a)) a = none := by
  induction d with
  | nil => simp [dictGet]
  | cons kv rest ih =>
      obtain ⟨k, v⟩ := kv
      by_cases h : k = a
      · simpa [List.filter, h] using ih
      · simpa [List.filter, h, dictGet] using ih

theorem dictGet_filter_none {α β : Type} [DecidableEq α]
    (d : List (α × β)) (a : α) (p : α × β → Bool) (h : dictGet d a = none) :
    dictGet (d.filter p) a = none := by
  induction d with
  | nil => simp [dictGet]
  | cons kv rest ih =>
      obtain ⟨k, v⟩ := kv
      by_cases hk : k = a
      · simp [dictGet, hk] at h
      · simp [dictGet, hk] at h
        by_cases hp : p (k, v) <;> simp [List.filter, hp, dictGet, hk, ih h]

/-- C1 (code_bug evidence): a first observe call creates the series, stores
the call time 5 and records the observation, but a second observe call on
the same series key — here at time 9 with value 7 — returns the state
unchanged: the last-touched timestamp is not set to the call time and the
per-label observation is not invoked, contradicting the claim that both
happen on every call. -/
theorem c1_observe_drops_subsequent_calls :
    (emptyGC.observe "m" "doc" [("path", "/x")] 3 [1, 5] 5).observe
        "m" "doc" [("path", "/x")] 7 [1, 5] 9
      = emptyGC.observe "m" "doc" [("path", "/x")] 3 [1, 5] 5 ∧
    (emptyGC.observe "m" "doc" [("path", "/x")] 3 [1, 5] 5).metricsTtl
      = [(("m", ([("path", "/x")] : Labels).toFinset), 5)] ∧
    childState (emptyGC.observe "m" "doc" [("path", "/x")] 3 [1, 5] 5) "m"
        ([("path", "/x")] : Labels).toFinset
      = some (Child.histV [3]) := by
  refine ⟨?_, ?_, ?_⟩ <;>
    norm_num [MetricGC.observe, Family.childObserve, childState, childGetM,
      emptyGC, dictGet, dictInsert]

/-- C10 (code_bug evidence): two label dicts with the same pairs in
different insertion order produce the same series key, so inc and
set_gauge address one series entry and refresh its last-touched timestamp
instead of creating a second series; observe also addresses the one entry
(no second series) but leaves an existing entry untouched — its timestamp
stays at the creation time 5 instead of being refreshed to 9, the part of
the claim the code violates. -/
theorem c10_series_key_order_independence :
    ((("m", ([("a", "1"), ("b", "2")] : Labels).toFinset) : SeriesKey)
      = ("m", ([("b", "2"), ("a", "1")] : Labels).toFinset)) ∧
    ((emptyGC.inc "m" "doc" [("a", "1"), ("b", "2")] 1 5).inc
        "m" "doc" [("b", "2"), ("a", "1")] 1 9).metricsTtl
      = [(("m", ([("a", "1"), ("b", "2")] : Labels).toFinset), 9)] ∧
    ((emptyGC.inc "m" "doc" [("a", "1"), ("b", "2")] 1 5).inc
        "m" "doc" [("b", "2"), ("a", "1")] 1 9).activeMetrics = 1 ∧
    ((emptyGC.set_gauge "m" "doc" [("a", "1"), ("b", "2")] 1 5).set_gauge
        "m" "doc" [("b", "2"), ("a", "1")] 2 9).metricsTtl
      = [(("m", ([("a", "1"), ("b", "2")] : Labels).toFinset), 9)] ∧
    ((emptyGC.observe "m" "doc" [("a", "1"), ("b", "2")] 3 [1] 5).observe
        "m" "doc" [("b", "2"), ("a", "1")] 4 [1] 9).metricsTtl
      = [(("m", ([("a", "1"), ("b", "2")] : Labels).toFinset), 5)] ∧
    childState ((emptyGC.observe "m" "doc" [("a", "1"), ("b", "2")] 3 [1] 5).observe
        "m" "doc" [("b", "2"), ("a", "1")] 4 [1] 9) "m"
        ([("a", "1"), ("b", "2")] : Labels).toFinset
      = some (Child.histV [3]) := by
  have hk : ([("b", "2"), ("a", "1")] : Labels).toFinset
      = ([("a", "1"), ("b", "2")] : Labels).toFinset := by decide
  refine ⟨by decide, ?_, ?_, ?_, ?_, ?_⟩ <;>
    norm_num [MetricGC.inc, MetricGC.set_gauge, MetricGC.observe,
      Family.childInc, Family.childSet, Family.childObserve, childState, childGetM,
      emptyGC, dictGet, dictInsert, hk]


theorem gcFold_fst (ttl now : ℚ) (l : List (SeriesKey × ℚ))
    (acc : List (SeriesKey × ℚ) × List (String × Family)) :
    (l.foldl (gcStep ttl now) acc).1 = acc.1 ++ l.filter (survives ttl now) := by
  induction l generalizing acc with
  | nil => simp
  | cons kv l ih =>
      by_cases h : kv.2 + ttl < now <;>
        simp [List.foldl, gcStep, h, survives, ih]

theorem childGetM_gcStep_none (ttl now : ℚ)
    (acc : List (SeriesKey × ℚ) × List (String × Family)) (kv : SeriesKey × ℚ)
    (n : String) (ls : Finset (String × String))
    (h : childGetM acc.2 n ls = none) :
    childGetM (gcStep ttl now acc kv).2 n ls = none := by
  by_cases hexp : kv.2 + ttl < now
  · simp only [gcStep, hexp, if_true]
    cases hf : dictGet acc.2 kv.1.1 with
    | none => simpa using h
    | some fam =>
        by_cases hn : n = kv.1.1
        · subst hn
          have hch : dictGet fam.children ls = none := by
            simpa [childGetM, hf] using h
          simp [childGetM, dictGet_dictInsert_self, Family.childRemove,
            dictGet_filter_none _ _ _ hch]
        · simpa [childGetM, dictGet_dictInsert_ne _ _ _ _ hn] using h
  · simpa [gcStep, hexp] using h

theorem dictGet_filter_key_false {α β : Type} [DecidableEq α]
    (d : List (α × β)) (a : α) (p : α × β → Bool)
    (hp : ∀ b, p (a, b) = false) :
    dictGet (d.filter p) a = none := by
  induction d with
  | nil => simp [dictGet]
  | cons kv rest ih =>
      obtain ⟨k, v⟩ := kv
      by_cases hk : k = a
      · subst hk
        simp [List.filter, hp v, ih]
      · by_cases hpkv : p (k, v) <;> simp [List.filter, hpkv, dictGet, hk, ih]

theorem childGetM_gcStep_kill (ttl now : ℚ)
    (acc : List (SeriesKey × ℚ) × List (String × Family)) (kv : SeriesKey × ℚ)
    (hexp : kv.2 + ttl < now) :
    childGetM (gcStep ttl now acc kv).2 kv.1.1 kv.1.2 = none := by
  simp only [gcStep, hexp, if_true]
  cases hf : dictGet acc.2 kv.1.1 with
  | none => simp [childGetM, hf]
  | some fam =>
      have hget : dictGet (dictInsert acc.2 kv.1.1 (fam.childRemove kv.1.2)) kv.1.1
          = some (fam.childRemove kv.1.2) := dictGet_dictInsert_self _ _ _
      simp only [childGetM, hget]
      simp only [Family.childRemove]
      exact dictGet_filter_key_false _ _ _ (fun b => by simp)

theorem childGetM_gcFold_none (ttl now : ℚ) (l : List (SeriesKey × ℚ))
    (acc : List (SeriesKey × ℚ) × List (String × Family))
    (n : String) (ls : Finset (String × String))
    (h : childGetM acc.2 n ls = none) :
    childGetM (l.foldl (gcStep ttl now) acc).2 n ls = none := by
  induction l generalizing acc with
  | nil => simpa using h
  | cons kv l ih => exact ih _ (childGetM_gcStep_none _ _ _ _ _ _ h)

theorem childGetM_gcFold_kill (ttl now : ℚ) (l : List (SeriesKey × ℚ))
    (kv : SeriesKey × ℚ) (hexp : kv.2 + ttl < now) :
    ∀ acc : List (SeriesKey × ℚ) × List (String × Family), kv ∈ l →
      childGetM (l.foldl (gcStep ttl now) acc).2 kv.1.1 kv.1.2 = none := by
  induction l with
  | nil => intro acc h; cases h
  | cons hd l ih =>
      intro acc hmem
      rw [List.foldl_cons]
      rcases List.mem_cons.mp hmem with h | hmem2
      · subst h
        exact childGetM_gcFold_none _ _ _ _ _ _
          (childGetM_gcStep_kill _ _ _ _ hexp)
      · exact ih _ hmem2

/-- C4: a gc pass at time now over a sub-registry keeps exactly the TTL
entries with last_touched + ttl not strictly below now (every other entry
is removed), removes the labelled child of every evicted series from its
family — so subsequent exposition no longer emits it — and afterwards
publishes the number of surviving series to the scraper_active_metrics
gauge. -/
theorem c4_gc_evicts_exactly_expired (s : MetricGC) (ttl now : ℚ) :
    (s.gc ttl now).metricsTtl = s.metricsTtl.filter (survives ttl now) ∧
    (s.gc ttl now).activeMetrics
      = ((s.metricsTtl.filter (survives ttl now)).length : ℚ) ∧
    ∀ kv ∈ s.metricsTtl, kv.2 + ttl < now →
      childState (s.gc ttl now) kv.1.1 kv.1.2 = none := by
  refine ⟨?_, ?_, ?_⟩
  · simpa [MetricGC.gc] using gcFold_fst ttl now s.metricsTtl ([], s.metrics)
  · have h := gcFold_fst ttl now s.metricsTtl ([], s.metrics)
    simp [MetricGC.gc, h]
  · intro kv hmem hexp
    simpa [MetricGC.gc, childState] using
      childGetM_gcFold_kill ttl now s.metricsTtl kv hexp ([], s.metrics) hmem

/-- Witness for C4 at a concrete sub-registry: of two series touched at
times 0 and 9 with ttl 1, a gc pass at time 10 drops the first (its child
is gone from the family) and keeps the second, and the gauge reads 1. -/
theorem c4_gc_witness :
    ((("m", ([("a", "1")] : Labels).toFinset), (0 : ℚ)) ∈
        ((emptyGC.inc "m" "doc" [("a", "1")] 1 0).inc "m" "doc" [("a", "9")] 1 9).metricsTtl ∧
      ((0 : ℚ) + 1 < 10)) ∧
    childState (((emptyGC.inc "m" "doc" [("a", "1")] 1 0).inc "m" "doc" [("a", "9")] 1 9).gc 1 10)
      "m" ([("a", "1")] : Labels).toFinset = none := by
  have hmem : ((("m", ([("a", "1")] : Labels).toFinset), (0 : ℚ)) ∈
      ((emptyGC.inc "m" "doc" [("a", "1")] 1 0).inc "m" "doc" [("a", "9")] 1 9).metricsTtl) := by
    decide
  have hexp : ((0 : ℚ) + 1 < 10) := by norm_num
  exact ⟨⟨hmem, hexp⟩,
    (c4_gc_evicts_exactly_expired _ 1 10).2.2 _ hmem hexp⟩


theorem dictInsert_get_eq {α β : Type} [DecidableEq α] (d : List (α × β)) (k : α) (v : β)
    (h : dictGet d k = some v) : dictInsert d k v = d := by
  induction d with
  | nil => simp [dictGet] at h
  | cons kv rest ih =>
      obtain ⟨k0, v0⟩ := kv
      by_cases hk : k0 = k
      · subst hk
        simp_all [dictGet, dictInsert]
      · simp_all [dictGet, dictInsert, hk]

theorem Family.childInc_childInc (f : Family) (ls : Finset (String × String)) (a b : ℚ) :
    (f.childInc ls a).childInc ls b = f.childInc ls (a + b) := by
  cases hc : dictGet f.children ls with
  | none =>
      simp [Family.childInc, hc, dictGet_dictInsert_self, dictInsert_dictInsert]
  | some c =>
      cases c with
      | counterV v =>
          simp [Family.childInc, hc, dictGet_dictInsert_self, dictInsert_dictInsert,
            add_assoc]
      | gaugeV v =>
          simp [Family.childInc, hc, dictGet_dictInsert_self, dictInsert_dictInsert]
      | histV obs =>
          simp [Family.childInc, hc, dictGet_dictInsert_self, dictInsert_dictInsert]

theorem MetricGC.inc_metricsTtl (s : MetricGC) (n d : String) (lb : Labels) (a t : ℚ) :
    (s.inc n d lb a t).metricsTtl = dictInsert s.metricsTtl (n, lb.toFinset) t := rfl

theorem MetricGC.inc_inc (s : MetricGC) (n d : String) (lb : Labels) (a b t t' : ℚ) :
    (s.inc n d lb a t).inc n d lb b t' = s.inc n d lb (a + b) t' := by
  cases hm : dictGet s.metrics n with
  | some c =>
      simp [MetricGC.inc, hm, dictGet_dictInsert_self, dictInsert_dictInsert,
        Family.childInc_childInc]
  | none =>
      simp [MetricGC.inc, hm, dictGet_dictInsert_self, dictInsert_dictInsert,
        Family.childInc_childInc]

theorem MetricGC.inc_eqExcept_time (s : MetricGC) (n d : String) (lb : Labels)
    (a t1 t2 : ℚ) :
    MetricGCEqExceptTtlAt (n, lb.toFinset) (s.inc n d lb a t1) (s.inc n d lb a t2) := by
  unfold MetricGCEqExceptTtlAt
  refine ⟨rfl, rfl, ?_, ?_⟩
  · rw [MetricGC.inc_metricsTtl, MetricGC.inc_metricsTtl]
    exact dictInsert_map_fst _ _ _ _
  · intro k hk
    rw [MetricGC.inc_metricsTtl, MetricGC.inc_metricsTtl,
      dictGet_dictInsert_ne _ _ _ _ hk, dictGet_dictInsert_ne _ _ _ _ hk]

theorem incGCTimes_collapse (n d : String) (lb : Labels) (a : ℚ) :
    ∀ ts : List ℚ, ts ≠ [] → ∀ (s : MetricGC) (t : ℚ),
      MetricGCEqExceptTtlAt (n, lb.toFinset) (incGCTimes n d lb a s ts)
        (s.inc n d lb ((ts.length : ℚ) * a) t) := by
  intro ts
  induction ts with
  | nil => intro h; exact absurd rfl h
  | cons t0 ts ih =>
      intro _ s t
      cases ts with
      | nil =>
          have h1 : incGCTimes n d lb a s [t0] = s.inc n d lb a t0 := rfl
          have h2 : ((([t0] : List ℚ).length : ℚ)) * a = a := by norm_num
          rw [h1, h2]
          exact MetricGC.inc_eqExcept_time s n d lb a t0 t
      | cons t1 ts2 =>
          have h1 : incGCTimes n d lb a s (t0 :: t1 :: ts2)
              = incGCTimes n d lb a (s.inc n d lb a t0) (t1 :: ts2) := rfl
          have h2 := ih (by simp) (s.inc n d lb a t0) t
          rw [MetricGC.inc_inc] at h2
          have h3 : (((t0 :: t1 :: ts2).length : ℚ)) * a
              = a + (((t1 :: ts2).length : ℚ)) * a := by
            simp only [List.length_cons]
            push_cast
            ring
          rw [h1, h3]
          exact h2

theorem getMetricsSub_present (reg : Registry) (env : String) (m : MetricGC)
    (h : dictGet reg env = some m) : getMetricsSub reg env = (m, reg) := by
  simp [getMetricsSub, h]

theorem inc_counter_env (pfx : String) (reg : Registry) (name doc : String)
    (labels : Labels) (amount now : ℚ) (env : String)
    (h : dictGet labels ENVIRONMENT = some env) :
    inc_counter pfx reg name doc labels amount now
      = some (dictInsert (getMetricsSub reg env).2 env
          ((getMetricsSub reg env).1.inc (pfx ++ ":" ++ name) doc labels amount now)) := by
  simp [inc_counter, h]

theorem incCounterTimes_run (pfx : String) (name doc : String) (labels : Labels)
    (a : ℚ) (env : String) (henv : dictGet labels ENVIRONMENT = some env) :
    ∀ (ts : List ℚ) (reg : Registry) (sub : MetricGC), dictGet reg env = some sub →
      incCounterTimes pfx name doc labels a ts reg
        = some (dictInsert reg env
            (incGCTimes (pfx ++ ":" ++ name) doc labels a sub ts)) := by
  intro ts
  induction ts with
  | nil =>
      intro reg sub h
      simp [incCounterTimes, incGCTimes, dictInsert_get_eq reg env sub h]
  | cons t0 ts ih =>
      intro reg sub h
      have hstep := inc_counter_env pfx reg name doc labels a t0 env henv
      rw [getMetricsSub_present reg env sub h] at hstep
      have hrec := ih (dictInsert reg env (sub.inc (pfx ++ ":" ++ name) doc labels a t0))
        (sub.inc (pfx ++ ":" ++ name) doc labels a t0)
        (dictGet_dictInsert_self _ _ _)
      calc incCounterTimes pfx name doc labels a (t0 :: ts) reg
          = incCounterTimes pfx name doc labels a ts
              (dictInsert reg env (sub.inc (pfx ++ ":" ++ name) doc labels a t0)) := by
            simp [incCounterTimes, hstep]
        _ = some (dictInsert reg env
              (incGCTimes (pfx ++ ":" ++ name) doc labels a sub (t0 :: ts))) := by
            rw [hrec, dictInsert_dictInsert]
            rfl


theorem getMetricsSub_get (reg : Registry) (env : String) :
    dictGet (getMetricsSub reg env).2 env = some (getMetricsSub reg env).1 := by
  cases h : dictGet reg env with
  | some m => simp [getMetricsSub, h]
  | none => simp [getMetricsSub, h, dictGet_dictInsert_self]

/-- C9: with a fixed metric name, docstring and label map (whose
environment label routes both executions to the same sub-registry),
calling inc_counter with amount a at each of k successive times leaves the
registry — families, the counter value of the series the labels address,
and the active-metrics gauge — exactly as one inc_counter call with amount
k·a does; the two final states can differ only in the last-touched
timestamp stored under that series key. -/
theorem c9_inc_counter_repeat_collapse (pfx : String) (reg : Registry)
    (name doc : String) (labels : Labels) (a : ℚ) (env : String)
    (henv : dictGet labels ENVIRONMENT = some env)
    (ts : List ℚ) (hts : ts ≠ []) (t : ℚ) :
    ∃ A B, incCounterTimes pfx name doc labels a ts reg = some A ∧
      inc_counter pfx reg name doc labels ((ts.length : ℚ) * a) t = some B ∧
      RegEqExceptTtlAt env (pfx ++ ":" ++ name, labels.toFinset) A B := by
  obtain ⟨t0, ts2, rfl⟩ := List.exists_cons_of_ne_nil hts
  set fullName := pfx ++ ":" ++ name with hfn
  set sub0 := (getMetricsSub reg env).1 with hsub0
  set reg0 := (getMetricsSub reg env).2 with hreg0
  have hget0 : dictGet reg0 env = some sub0 := getMetricsSub_get reg env
  have hstep := inc_counter_env pfx reg name doc labels a t0 env henv
  have hrepeat : incCounterTimes pfx name doc labels a (t0 :: ts2) reg
      = some (dictInsert reg0 env (incGCTimes fullName doc labels a sub0 (t0 :: ts2))) := by
    have hrun := incCounterTimes_run pfx name doc labels a env henv ts2
      (dictInsert reg0 env (sub0.inc fullName doc labels a t0))
      (sub0.inc fullName doc labels a t0) (dictGet_dictInsert_self _ _ _)
    calc incCounterTimes pfx name doc labels a (t0 :: ts2) reg
        = incCounterTimes pfx name doc labels a ts2
            (dictInsert reg0 env (sub0.inc fullName doc labels a t0)) := by
          simp [incCounterTimes, hstep]
      _ = some (dictInsert reg0 env (incGCTimes fullName doc labels a sub0 (t0 :: ts2))) := by
          rw [hrun, dictInsert_dictInsert]
          rfl
  have hsingle := inc_counter_env pfx reg name doc labels
    ((((t0 :: ts2).length : ℚ)) * a) t env henv
  refine ⟨dictInsert reg0 env (incGCTimes fullName doc labels a sub0 (t0 :: ts2)),
    dictInsert reg0 env (sub0.inc fullName doc labels ((((t0 :: ts2).length : ℚ)) * a) t),
    hrepeat, hsingle, ?_, ?_, ?_⟩
  · exact dictInsert_map_fst _ _ _ _
  · intro e he
    rw [dictGet_dictInsert_ne _ _ _ _ he, dictGet_dictInsert_ne _ _ _ _ he]
  · exact ⟨incGCTimes fullName doc labels a sub0 (t0 :: ts2),
      sub0.inc fullName doc labels ((((t0 :: ts2).length : ℚ)) * a) t,
      dictGet_dictInsert_self _ _ _, dictGet_dictInsert_self _ _ _,
      incGCTimes_collapse fullName doc labels a (t0 :: ts2) (by simp) sub0 t⟩

/-- Witness for C9: two inc_counter calls with amount 2 at times 3 and 4
from the empty registry, against one call with amount 2·2 = 4 at time 7. -/
theorem c9_witness :
    dictGet ([("environment", "e")] : Labels) ENVIRONMENT = some "e" ∧
    (([3, 4] : List ℚ) ≠ []) ∧
    (∃ A B, incCounterTimes "p" "c" "doc" [("environment", "e")] 2 [3, 4] [] = some A ∧
      inc_counter "p" [] "c" "doc" [("environment", "e")]
          ((([3, 4] : List ℚ).length : ℚ) * 2) 7 = some B ∧
      RegEqExceptTtlAt "e" ("p" ++ ":" ++ "c",
        ([("environment", "e")] : Labels).toFinset) A B) :=
  ⟨by decide, by decide,
    c9_inc_counter_repeat_collapse "p" [] "c" "doc" [("environment", "e")] 2 "e"
      (by decide) [3, 4] (by decide) 7⟩


/-- C5 (counterexample): a non-label column named in_bytes passes the
format validation of parse_config — the code reserves only parser_errors
and lines_parsed — refuting the claim that in_bytes is rejected. -/
theorem c5_counterexample_in_bytes_accepted :
    validateFormat [some ("in_bytes", some "number")]
      = Except.ok [some (ReaderSpec.number "in_bytes")] := rfl

/-- C5 (amended): configuration parsing fails with a fatal startup error
whenever the user schema declares a label column named environment, or a
typed non-label column named parser_errors or lines_parsed.  The name
in_bytes is not reserved by the code (see the counterexample). -/
theorem c5_reserved_names_are_startup_fatal (entries : List FmtEntry)
    (name tp : String) (hmem : some (name, some tp) ∈ entries)
    (hres : (tp = "label" ∧ name = "environment") ∨
      (tp ≠ "label" ∧ (name = "parser_errors" ∨ name = "lines_parsed"))) :
    ∃ e, validateFormat entries = Except.error e := by
  induction entries with
  | nil => cases hmem
  | cons hd rest ih =>
      rcases List.mem_cons.mp hmem with hh | h2
      · subst hh
        rcases hres with ⟨ht, hn⟩ | ⟨ht, hn⟩
        · subst ht
          subst hn
          exact ⟨ConfigError.reservedLabelName, by simp [validateFormat]⟩
        · refine ⟨ConfigError.reservedMetricName name, ?_⟩
          simp only [validateFormat]
          rw [if_neg (fun hb => ht hb.1), if_pos ⟨ht, hn⟩]
      · obtain ⟨e, he⟩ := ih h2
        match hd with
        | none => exact ⟨e, by simp [validateFormat, he]⟩
        | some (n2, none) => exact ⟨e, by simp [validateFormat, he]⟩
        | some (n2, some t2) =>
            by_cases hb1 : t2 = "label" ∧ n2 = "environment"
            · refine ⟨ConfigError.reservedLabelName, ?_⟩
              simp only [validateFormat]
              rw [if_pos hb1]
            · by_cases hb2 : t2 ≠ "label" ∧ (n2 = "parser_errors" ∨ n2 = "lines_parsed")
              · refine ⟨ConfigError.reservedMetricName n2, ?_⟩
                simp only [validateFormat]
                rw [if_neg hb1, if_pos hb2]
              · cases hro : readerOfType t2 n2 with
                | none =>
                    refine ⟨ConfigError.unknownReaderType t2, ?_⟩
                    simp only [validateFormat]
                    rw [if_neg hb1, if_neg hb2, hro]
                | some r =>
                    refine ⟨e, ?_⟩
                    simp only [validateFormat]
                    rw [if_neg hb1, if_neg hb2, hro, he]

/-- Witness for C5: a non-label column named parser_errors is rejected. -/
theorem c5_witness :
    (some ("parser_errors", some "number") ∈
      ([some ("parser_errors", some "number")] : List FmtEntry)) ∧
    (∃ e, validateFormat [some ("parser_errors", some "number")]
      = Except.error e) :=
  ⟨by simp,
    c5_reserved_names_are_startup_fatal [some ("parser_errors", some "number")]
      "parser_errors" "number" (by simp) (Or.inr ⟨by decide, Or.inl rfl⟩)⟩


theorem applyReader_isSome (rd : ReaderSpec) (m1 m2 : Metric) (c : String) :
    (applyReader rd m1 c).isSome = (applyReader rd m2 c).isSome := by
  cases rd with
  | label name => simp [applyReader, label_reader]
  | number name =>
      cases hp : pyInt c <;> cases hf : pyFloat c <;>
        simp [applyReader, number_reader, int_reader, float_reader, hp, hf]
  | clf_number name =>
      by_cases hc : c = "-" <;>
        cases hp : pyInt c <;> cases hf : pyFloat c <;>
          simp [applyReader, clf_number_reader, number_reader, int_reader,
            float_reader, hc, hp, hf]
  | request_header =>
      simp only [applyReader, request_header_reader]
      match pySplit c with
      | [] => rfl
      | [a] => rfl
      | [a, b] => rfl
      | [a, b, d] => rfl
      | a :: b :: d :: e :: l => rfl

theorem runReaders_snd_const :
    ∀ (rs : List (Option ReaderSpec)) (cols : List String) (m1 m2 : Metric),
      (runReaders rs cols m1).2 = (runReaders rs cols m2).2 := by
  intro rs
  induction rs with
  | nil => intro cols m1 m2; rfl
  | cons r rs ih =>
      intro cols m1 m2
      cases cols with
      | nil => cases r <;> rfl
      | cons c cs =>
          cases r with
          | none => exact ih cs m1 m2
          | some rd =>
              have hs := applyReader_isSome rd m1 m2 c
              cases h1 : applyReader rd m1 c with
              | none =>
                  cases h2 : applyReader rd m2 c with
                  | none => simp [runReaders, h1, h2]
                  | some m2x => rw [h1, h2] at hs; simp at hs
              | some m1x =>
                  cases h2 : applyReader rd m2 c with
                  | none => rw [h1, h2] at hs; simp at hs
                  | some m2x =>
                      simp only [runReaders, h1, h2]
                      exact ih cs m1x m2x

theorem convert_none_iff_lineOk (rs : List (Option ReaderSpec))
    (row : List String) (labels : Labels) :
    (convert_csv_line rs row labels).1 = none ↔ lineOk rs row = false := by
  by_cases hl : rs.length = row.length
  · have hconst := runReaders_snd_const rs row ⟨labels, []⟩ ⟨[], []⟩
    simp only [convert_csv_line, lineOk]
    rw [if_neg (by simp [hl])]
    cases hflag : (runReaders rs row ⟨labels, []⟩).2 <;>
      simp [hflag, ← hconst, hl]
  · simp [convert_csv_line, lineOk, hl]

theorem convertThread_length (rs : List (Option ReaderSpec)) :
    ∀ (rows : List (List String)) (labels : Labels),
      (convertThread rs rows labels).length = rows.length := by
  intro rows
  induction rows with
  | nil => intro labels; rfl
  | cons r0 rest ih => intro labels; simp [convertThread, ih]

theorem convertThread_get (rs : List (Option ReaderSpec)) :
    ∀ (rows : List (List String)) (labels : Labels) (i : ℕ) (row : List String),
      rows.get? i = some row →
      ∃ l, (convertThread rs rows labels).get? i
        = some ((convert_csv_line rs row l).1) := by
  intro rows
  induction rows with
  | nil => intro labels i row h; simp at h
  | cons r0 rest ih =>
      intro labels i row h
      cases i with
      | zero =>
          simp only [List.get?] at h
          injection h with h
          subst h
          exact ⟨labels, rfl⟩
      | succ j =>
          simp only [List.get?] at h
          obtain ⟨l, hl⟩ := ih (convert_csv_line rs r0 labels).2 j row h
          exact ⟨l, hl⟩

/-- C6: a tokenized record whose field count differs from the reader count
— in particular the empty record an empty line tokenizes to, under a
non-empty schema — converts to a ParserError, so read_all yields the
sentinel at that position; and an empty line does tokenize to the record
with zero fields. -/
theorem c6_token_count_mismatch_yields_sentinel
    (readers : List (Option ReaderSpec)) (labels : Labels)
    (chunks : List String) (i : ℕ) (row : List String)
    (hrow : (pyCsvReadAll chunks).1.get? i = some row)
    (hlen : row.length ≠ readers.length) :
    (read_all readers labels chunks).1.get? i = some none ∧
    pyCsvReadAll ["\n"] = ([[]], none) := by
  constructor
  · obtain ⟨l, hl⟩ := convertThread_get readers (pyCsvReadAll chunks).1 labels i row hrow
    have hne : ¬ (readers.length = row.length) := fun h => hlen h.symm
    have hnone : (convert_csv_line readers row l).1 = none := by
      simp [convert_csv_line, hne]
    have : (read_all readers labels chunks).1
        = convertThread readers (pyCsvReadAll chunks).1 labels := rfl
    rw [this, hl, hnone]
  · rfl

/-- Witness for C6: the empty line under the one-column schema yields the
sentinel. -/
theorem c6_witness :
    (pyCsvReadAll ["\n"]).1.get? 0 = some [] ∧
    (([] : List String).length ≠ ([some (ReaderSpec.number "n")] : List (Option ReaderSpec)).length) ∧
    (read_all [some (ReaderSpec.number "n")] [("environment", "e")] ["\n"]).1.get? 0
      = some none :=
  ⟨rfl, by decide,
    (c6_token_count_mismatch_yields_sentinel [some (ReaderSpec.number "n")]
      [("environment", "e")] ["\n"] 0 [] rfl (by decide)).1⟩

/-- C2 (amended): every tokenized record produces exactly one item of the
output sequence, a record on which conversion raises ParserError (a failed
reader or a token-count mismatch) produces the sentinel none without
affecting later records, and the only error read_all can raise past the
sentinel mechanism is the tokenizer's own csv.Error, returned unchanged —
a strict-mode tokenization failure such as an unterminated quote is not
caught by read_all (its except clause covers only ParserError), so it ends
the sequence instead of yielding a sentinel. -/
theorem c2_parser_errors_become_sentinels
    (readers : List (Option ReaderSpec)) (labels : Labels)
    (chunks : List String) :
    (read_all readers labels chunks).2 = (pyCsvReadAll chunks).2 ∧
    (read_all readers labels chunks).1.length = (pyCsvReadAll chunks).1.length ∧
    ∀ (i : ℕ) (row : List String), (pyCsvReadAll chunks).1.get? i = some row →
      lineOk readers row = false →
      (read_all readers labels chunks).1.get? i = some none := by
  refine ⟨rfl, convertThread_length readers (pyCsvReadAll chunks).1 labels, ?_⟩
  intro i row hrow hok
  obtain ⟨l, hl⟩ := convertThread_get readers (pyCsvReadAll chunks).1 labels i row hrow
  have hnone : (convert_csv_line readers row l).1 = none :=
    (convert_none_iff_lineOk readers row l).mpr hok
  have hre : (read_all readers labels chunks).1
      = convertThread readers (pyCsvReadAll chunks).1 labels := rfl
  rw [hre, hl, hnone]

/-- C2 (counterexample): one line with an unterminated quote under strict
mode — the sequence contains no sentinel for it; read_all raises the
csv.Error (unexpected end of data), which escapes to the caller. -/
theorem c2_counterexample_unterminated_quote :
    read_all [some (ReaderSpec.number "n")] [("environment", "e")]
        [String.mk (('"') :: "abc\n".toList)]
      = ([], some CsvErr.unexpectedEndOfData) := rfl


theorem writableNames_cons_some (rd : ReaderSpec) (rs : List (Option ReaderSpec)) :
    writableNames (some rd :: rs) = readerNames rd ++ writableNames rs := by
  cases rd <;> rfl

theorem applyReader_equiv (rd : ReaderSpec) (m1 m2 m1x : Metric) (c : String)
    (h1 : applyReader rd m1 c = some m1x) (hm : m1.metrics = m2.metrics) :
    ∃ m2x, applyReader rd m2 c = some m2x ∧ m1x.metrics = m2x.metrics ∧
      ∀ n : String,
        (n ∈ readerNames rd → dictGet m1x.labels n = dictGet m2x.labels n) ∧
        (n ∉ readerNames rd →
          dictGet m1x.labels n = dictGet m1.labels n ∧
          dictGet m2x.labels n = dictGet m2.labels n) := by
  cases rd with
  | label name =>
      simp only [applyReader, label_reader, Option.some_inj] at h1
      refine ⟨{ m2 with labels := dictInsert m2.labels name c }, rfl, ?_, ?_⟩
      · rw [← h1]
        exact hm
      · intro n
        constructor
        · intro hin
          simp only [readerNames, List.mem_singleton] at hin
          subst hin
          rw [← h1]
          simp [dictGet_dictInsert_self]
        · intro hout
          simp only [readerNames, List.mem_singleton] at hout
          rw [← h1]
          simp [dictGet_dictInsert_ne _ _ _ _ hout]
  | number name =>
      cases hp : pyInt c with
      | some i =>
          simp only [applyReader, number_reader, int_reader, hp,
            Option.some_inj] at h1
          refine ⟨{ m2 with metrics := dictInsert m2.metrics name (PyNumber.intVal i) }, by simp [applyReader, number_reader, int_reader, hp], ?_, ?_⟩
          · rw [← h1, hm]
          · intro n
            refine ⟨fun hin => absurd hin (by simp [readerNames]), fun _ => ?_⟩
            rw [← h1]
            exact ⟨rfl, rfl⟩
      | none =>
          cases hf : pyFloat c with
          | some f =>
              simp only [applyReader, number_reader, int_reader, float_reader,
                hp, hf, Option.some_inj] at h1
              refine ⟨{ m2 with metrics := dictInsert m2.metrics name (PyNumber.floatVal f) }, by simp [applyReader, number_reader, int_reader, float_reader, hp, hf], ?_, ?_⟩
              · rw [← h1, hm]
              · intro n
                refine ⟨fun hin => absurd hin (by simp [readerNames]), fun _ => ?_⟩
                rw [← h1]
                exact ⟨rfl, rfl⟩
          | none =>
              simp [applyReader, number_reader, int_reader, float_reader, hp, hf] at h1
  | clf_number name =>
      by_cases hc : c = "-"
      · simp only [applyReader, clf_number_reader, hc, if_true, eq_self_iff_true,
          if_pos, Option.some_inj] at h1
        refine ⟨{ m2 with metrics := dictInsert m2.metrics name (PyNumber.intVal 0) }, by simp [applyReader, clf_number_reader, hc], ?_, ?_⟩
        · rw [← h1, hm]
        · intro n
          refine ⟨fun hin => absurd hin (by simp [readerNames]), fun _ => ?_⟩
          rw [← h1]
          exact ⟨rfl, rfl⟩
      · rw [show applyReader (ReaderSpec.clf_number name) m1 c
            = number_reader name m1 c from by simp [applyReader, clf_number_reader, hc]] at h1
        cases hp : pyInt c with
        | some i =>
            simp only [number_reader, int_reader, hp, Option.some_inj] at h1
            refine ⟨{ m2 with metrics := dictInsert m2.metrics name (PyNumber.intVal i) }, by simp [applyReader, clf_number_reader, number_reader, int_reader, hc, hp], ?_, ?_⟩
            · rw [← h1, hm]
            · intro n
              refine ⟨fun hin => absurd hin (by simp [readerNames]), fun _ => ?_⟩
              rw [← h1]
              exact ⟨rfl, rfl⟩
        | none =>
            cases hf : pyFloat c with
            | some f =>
                simp only [number_reader, int_reader, float_reader, hp, hf,
                  Option.some_inj] at h1
                refine ⟨{ m2 with metrics := dictInsert m2.metrics name (PyNumber.floatVal f) }, by simp [applyReader, clf_number_reader, number_reader, int_reader, float_reader, hc, hp, hf], ?_, ?_⟩
                · rw [← h1, hm]
                · intro n
                  refine ⟨fun hin => absurd hin (by simp [readerNames]), fun _ => ?_⟩
                  rw [← h1]
                  exact ⟨rfl, rfl⟩
            | none =>
                simp [number_reader, int_reader, float_reader, hp, hf] at h1
  | request_header =>
      rcases hps : pySplit c with _ | ⟨a, _ | ⟨b, _ | ⟨d, _ | ⟨e, tl⟩⟩⟩⟩
      · simp [applyReader, request_header_reader, hps] at h1
      · simp [applyReader, request_header_reader, hps] at h1
      · simp [applyReader, request_header_reader, hps] at h1
      · simp only [applyReader, request_header_reader, hps, Option.some_inj] at h1
        refine ⟨{ m2 with labels := dictInsert (dictInsert (dictInsert m2.labels "request_method" a) "request_uri" b) "request_http_version" d }, by simp [applyReader, request_header_reader, hps], ?_, ?_⟩
        · rw [← h1]
          exact hm
        · intro n
          constructor
          · intro hin
            rw [← h1]
            simp only [readerNames, List.mem_cons, List.not_mem_nil,
              or_false] at hin
            rcases hin with hq1 | hq2 | hq3
            · subst hq1
              rw [dictGet_dictInsert_ne _ _ _ _ (by decide),
                dictGet_dictInsert_ne _ _ _ _ (by decide),
                dictGet_dictInsert_self,
                dictGet_dictInsert_ne _ _ _ _ (by decide),
                dictGet_dictInsert_ne _ _ _ _ (by decide),
                dictGet_dictInsert_self]
            · subst hq2
              rw [dictGet_dictInsert_ne _ _ _ _ (by decide),
                dictGet_dictInsert_self,
                dictGet_dictInsert_ne _ _ _ _ (by decide),
                dictGet_dictInsert_self]
            · subst hq3
              rw [dictGet_dictInsert_self, dictGet_dictInsert_self]
          · intro hout
            simp only [readerNames, List.mem_cons, List.not_mem_nil,
              or_false, not_or] at hout
            obtain ⟨hn1, hn2, hn3⟩ := hout
            rw [← h1]
            constructor
            · rw [dictGet_dictInsert_ne _ _ _ _ hn3,
                dictGet_dictInsert_ne _ _ _ _ hn2,
                dictGet_dictInsert_ne _ _ _ _ hn1]
            · rw [dictGet_dictInsert_ne _ _ _ _ hn3,
                dictGet_dictInsert_ne _ _ _ _ hn2,
                dictGet_dictInsert_ne _ _ _ _ hn1]
      · simp [applyReader, request_header_reader, hps] at h1


theorem runReaders_labels_outside (rs : List (Option ReaderSpec)) :
    ∀ (cols : List String) (m : Metric) (n : String), n ∉ writableNames rs →
      dictGet (runReaders rs cols m).1.labels n = dictGet m.labels n := by
  induction rs with
  | nil => intro cols m n _; rfl
  | cons r rs ih =>
      intro cols m n hn
      cases cols with
      | nil => cases r <;> rfl
      | cons c cs =>
          cases r with
          | none => exact ih cs m n hn
          | some rd =>
              rw [writableNames_cons_some, List.mem_append, not_or] at hn
              obtain ⟨hn1, hn2⟩ := hn
              cases h1 : applyReader rd m c with
              | none => simp [runReaders, h1]
              | some m1x =>
                  obtain ⟨m2x, h2, _, hlab⟩ := applyReader_equiv rd m m m1x c h1 rfl
                  rw [h1, Option.some_inj] at h2
                  subst h2
                  have hpres := ((hlab n).2 hn1).1
                  simp only [runReaders, h1]
                  rw [ih cs m1x n hn2, hpres]

theorem runReaders_equiv (rs : List (Option ReaderSpec)) :
    ∀ (cols : List String) (m1 m2 : Metric), rs.length = cols.length →
      (∀ n, n ∉ writableNames rs → dictGet m1.labels n = dictGet m2.labels n) →
      m1.metrics = m2.metrics →
      (runReaders rs cols m1).2 = true →
      (∀ n, dictGet (runReaders rs cols m1).1.labels n
          = dictGet (runReaders rs cols m2).1.labels n) ∧
      (runReaders rs cols m1).1.metrics = (runReaders rs cols m2).1.metrics := by
  induction rs with
  | nil =>
      intro cols m1 m2 _ H Hm _
      exact ⟨fun n => H n (by simp [writableNames]), Hm⟩
  | cons r rs ih =>
      intro cols m1 m2 hlen H Hm hsucc
      cases cols with
      | nil => simp at hlen
      | cons c cs =>
          have hlen2 : rs.length = cs.length := by simpa using hlen
          cases r with
          | none =>
              exact ih cs m1 m2 hlen2 H Hm hsucc
          | some rd =>
              cases h1 : applyReader rd m1 c with
              | none => rw [show runReaders (some rd :: rs) (c :: cs) m1 = (m1, false)
                    from by simp [runReaders, h1]] at hsucc; simp at hsucc
              | some m1x =>
                  obtain ⟨m2x, h2, hmx, hlab⟩ := applyReader_equiv rd m1 m2 m1x c h1 Hm
                  have hH : ∀ n, n ∉ writableNames rs →
                      dictGet m1x.labels n = dictGet m2x.labels n := by
                    intro n hn
                    by_cases hin : n ∈ readerNames rd
                    · exact (hlab n).1 hin
                    · obtain ⟨p1, p2⟩ := (hlab n).2 hin
                      rw [p1, p2]
                      exact H n (by rw [writableNames_cons_some, List.mem_append]
                                    exact fun hor => hor.elim hin hn)
                  have hsucc2 : (runReaders rs cs m1x).2 = true := by
                    rw [show runReaders (some rd :: rs) (c :: cs) m1
                        = runReaders rs cs m1x from by simp [runReaders, h1]] at hsucc
                    exact hsucc
                  have hres := ih cs m1x m2x hlen2 hH hmx hsucc2
                  rw [show runReaders (some rd :: rs) (c :: cs) m1
                      = runReaders rs cs m1x from by simp [runReaders, h1],
                    show runReaders (some rd :: rs) (c :: cs) m2
                      = runReaders rs cs m2x from by simp [runReaders, h2]]
                  exact hres

theorem convert_labels_outside (rs : List (Option ReaderSpec)) (row : List String)
    (lbls : Labels) (n : String) (hn : n ∉ writableNames rs) :
    dictGet (convert_csv_line rs row lbls).2 n = dictGet lbls n := by
  by_cases hl : rs.length ≠ row.length
  · simp [convert_csv_line, hl]
  · simp only [convert_csv_line]
    rw [if_neg hl]
    exact runReaders_labels_outside rs row ⟨lbls, []⟩ n hn

theorem convert_csv_line_equiv (rs : List (Option ReaderSpec)) (row : List String)
    (lbls base : Labels)
    (H : ∀ n, n ∉ writableNames rs → dictGet lbls n = dictGet base n) :
    OptMetricEquiv (convert_csv_line rs row lbls).1 (convert_csv_line rs row base).1 := by
  by_cases hl : rs.length = row.length
  · have hflag := runReaders_snd_const rs row ⟨lbls, []⟩ ⟨base, []⟩
    have hne : ¬ (rs.length ≠ row.length) := by simp [hl]
    cases hf : (runReaders rs row ⟨lbls, []⟩).2 with
    | false =>
        have hfB : (runReaders rs row ⟨base, []⟩).2 = false := by
          rw [← hflag]
          exact hf
        simp [convert_csv_line, hne, hf, hfB, OptMetricEquiv]
    | true =>
        have hfB : (runReaders rs row ⟨base, []⟩).2 = true := by
          rw [← hflag]
          exact hf
        have hres := runReaders_equiv rs row ⟨lbls, []⟩ ⟨base, []⟩ hl H rfl hf
        simp only [convert_csv_line, if_neg hne, hf, hfB, if_true]
        simpa [OptMetricEquiv, MetricEquiv] using hres
  · simp [convert_csv_line, hl, OptMetricEquiv]

theorem convertThread_equiv (rs : List (Option ReaderSpec)) (base : Labels) :
    ∀ (rows : List (List String)) (lbls : Labels),
      (∀ n, n ∉ writableNames rs → dictGet lbls n = dictGet base n) →
      List.Forall₂ OptMetricEquiv (convertThread rs rows lbls)
        (convertFresh rs base rows) := by
  intro rows
  induction rows with
  | nil => intro lbls _; exact List.Forall₂.nil
  | cons row rest ih =>
      intro lbls H
      refine List.Forall₂.cons (convert_csv_line_equiv rs row lbls base H) (ih _ ?_)
      intro n hn
      rw [convert_labels_outside rs row lbls n hn]
      exact H n hn

/-- C3: running the parser over any line sequence with its one shared,
reader-mutated labels dict produces, line for line, the same output as
applying every line to a fresh Metric seeded with the original base
labels: the same lines succeed or fail, and each produced Metric has the
same label map and the same numeric fields.  In particular, labels written
by label readers on a line whose later reader fails never change the
Metric produced for any subsequent line (metric fields are stored in a
dict that really is fresh per line). -/
theorem c3_lines_behave_as_fresh_metrics (rs : List (Option ReaderSpec))
    (base : Labels) (chunks : List String) :
    List.Forall₂ OptMetricEquiv (read_all rs base chunks).1
      (convertFresh rs base (pyCsvReadAll chunks).1) := by
  have h : (read_all rs base chunks).1
      = convertThread rs (pyCsvReadAll chunks).1 base := rfl
  rw [h]
  exact convertThread_equiv rs base (pyCsvReadAll chunks).1 base (fun n _ => rfl)


/-- C7: the number reader parses the token as an integer first, else as a
floating-point value, stores the result under metrics[name], and raises a
parse error exactly when the token is neither an integer literal nor a
floating-point literal (pyInt and pyFloat model the acceptance of the
builtins int() and float()). -/
theorem c7_number_reader_int_first_then_float
    (name : String) (m : Metric) (v : String) :
    (∀ i, pyInt v = some i →
      number_reader name m v
        = some { m with metrics := dictInsert m.metrics name (PyNumber.intVal i) }) ∧
    (pyInt v = none → ∀ f, pyFloat v = some f →
      number_reader name m v
        = some { m with metrics := dictInsert m.metrics name (PyNumber.floatVal f) }) ∧
    (number_reader name m v = none ↔ pyInt v = none ∧ pyFloat v = none) := by
  refine ⟨?_, ?_, ?_⟩
  · intro i hp
    simp [number_reader, int_reader, hp]
  · intro hp f hf
    simp [number_reader, int_reader, float_reader, hp, hf]
  · cases hp : pyInt v <;> cases hf : pyFloat v <;>
      simp [number_reader, int_reader, float_reader, hp, hf]

/-- Witness for C7 on concrete tokens: 12 parses as the integer 12, 2.5
fails integer parsing and parses as the float 5/2, and abc is a parse
error. -/
theorem c7_witness :
    pyInt "12" = some 12 ∧
    number_reader "n" ⟨[], []⟩ "12"
      = some ⟨[], [("n", PyNumber.intVal 12)]⟩ ∧
    pyInt "2.5" = none ∧ pyFloat "2.5" = some (PyFloat.finite (5 / 2)) ∧
    number_reader "n" ⟨[], []⟩ "2.5"
      = some ⟨[], [("n", PyNumber.floatVal (PyFloat.finite (5 / 2)))]⟩ ∧
    number_reader "n" ⟨[], []⟩ "abc" = none := by
  refine ⟨by decide, ?_, by decide, ?_, ?_, ?_⟩
  · exact (c7_number_reader_int_first_then_float "n" ⟨[], []⟩ "12").1 12 (by decide)
  · with_unfolding_all rfl
  · exact (c7_number_reader_int_first_then_float "n" ⟨[], []⟩ "2.5").2.1
      (by decide) (PyFloat.finite (5 / 2)) (by with_unfolding_all rfl)
  · exact (c7_number_reader_int_first_then_float "n" ⟨[], []⟩ "abc").2.2.mpr
      ⟨by decide, by decide⟩

/-- C8: the clf_number reader maps the dash token to the stored value 0
and on every other token behaves exactly like the number reader — it
stores the parsed numeric value under metrics[name] and raises a parse
error on a non-numeric token, as c7 characterizes. -/
theorem c8_clf_number_reader_dash_is_zero (name : String) (m : Metric) (v : String) :
    clf_number_reader name m "-"
      = some { m with metrics := dictInsert m.metrics name (PyNumber.intVal 0) } ∧
    (v ≠ "-" → clf_number_reader name m v = number_reader name m v) := by
  constructor
  · simp [clf_number_reader]
  · intro hv
    simp [clf_number_reader, hv]

end CsvProm
